import Mathlib

/-
Shallow embedding of the GoGuard repository (rawcsav/GoGuard) for checking
its natural-language specification.

Embedded source:
  * src/unnamed/part_002        package detect: FetchAllMullvadServers, TCPPing,
                                FindBestServer (two-phase latency prober)
  * src/internal/detect/detect.go  package detect: FetchAllMullvadServers,
                                FindBestServers, FindBestServersInCountry,
                                SelectBestServer
  * src/pkg/vpn/vpn.go          package vpn: MonitorConnection, SwitchServer,
                                DisconnectVPN, VPNStatus

Network I/O (HTTP fetches and TCP pings) is abstracted into oracle parameters:
a coarse-ping oracle, a refined-ping oracle (per attempt), the already
unmarshalled catalog body, and the status-endpoint body.  Latencies are Go
time.Duration values, i.e. nanosecond counts; TCPPing only ever produces
non-negative durations, so they are modelled as Nat (Go's integer division
on non-negative int64 agrees with Nat division).

Go's sort.Slice is a library call; its documented contract is that the slice
afterwards is a permutation of the input that is sorted by the given less
function, and the sort is NOT guaranteed to be stable.  It is therefore
modelled by a structure GoSortSlice bundling an arbitrary function satisfying
exactly that contract; pipeline definitions are parameterised by such a model,
and concrete evaluations instantiate it with an insertion sort (one admissible
implementation).
-/

deriving instance DecidableEq for Except

namespace GoGuard

/-- Go time.Duration (nanoseconds), restricted to the non-negative values
produced by TCPPing. -/
abbrev Duration := Nat

/-- ASCII lower-casing of one character.  The relay catalog's type and
country fields are ASCII, where Go's Unicode-aware strings.ToLower agrees
with this. -/
def lowerChar (c : Char) : Char :=
  if 65 ≤ c.toNat ∧ c.toNat ≤ 90 then Char.ofNat (c.toNat + 32) else c

/-- Model of strings.ToLower restricted to ASCII inputs. -/
def strToLower (s : String) : String := String.mk (s.data.map lowerChar)

/-- Mirrors struct MullvadServer of src/internal/detect/detect.go (the copy in
src/unnamed/part_002 has the same json fields minus pubkey): hostname,
ipv4_addr_in, country_name, pubkey, type. -/
structure MullvadServer where
  hostname : String
  ipv4AddrIn : String
  countryName : String
  publicKey : String
  type' : String
  deriving DecidableEq, Repr

/-- Mirrors struct ServerLatency: a server together with its measured
latency. -/
structure ServerLatency where
  server : MullvadServer
  latency : Duration
  deriving DecidableEq, Repr

/-- Less function passed to sort.Slice in the source:
`serverLatencies[i].Latency < serverLatencies[j].Latency`.  The resulting
order is non-decreasing latency, i.e. sorted by this reflexive relation. -/
def latR (a b : ServerLatency) : Prop := a.latency ≤ b.latency

instance : DecidableRel latR := fun a b => Nat.decLe a.latency b.latency

instance : IsTotal ServerLatency latR := ⟨fun a b => Nat.le_total a.latency b.latency⟩

instance : IsTrans ServerLatency latR := ⟨fun _ _ _ => Nat.le_trans⟩

/-- Model of Go's sort.Slice applied with the latency less function: any
function returning a permutation of its input that is sorted by latency.
Go documents sort.Slice as not guaranteed to be stable, so the order of
equal-latency entries is not constrained. -/
structure GoSortSlice where
  sortLat : List ServerLatency → List ServerLatency
  perm : ∀ l, (sortLat l).Perm l
  sorted : ∀ l, List.Sorted latR (sortLat l)

/-- Canonical admissible sort.Slice implementation, used to evaluate the
pipeline on concrete inputs: a stable insertion sort by latency. -/
def stdSortModel : GoSortSlice where
  sortLat l := List.insertionSort latR l
  perm l := List.perm_insertionSort latR l
  sorted l := List.sorted_insertionSort latR l

/-- Another admissible sort.Slice implementation: it sorts the reversed input
with a stable sort, so entries with equal latency come out in reversed input
order.  It satisfies sort.Slice's documented contract just as stdSortModel
does. -/
def tieFlipModel : GoSortSlice where
  sortLat l := List.insertionSort latR l.reverse
  perm l := (List.perm_insertionSort latR l.reverse).trans l.reverse_perm
  sorted l := List.sorted_insertionSort latR l.reverse

/-- Coarse-phase fan-out of FindBestServer (src/unnamed/part_002, lines
79-109): one goroutine per server performs a single TCPPing; failures send
nothing, successes send a ServerLatency on the results channel, and the
channel is drained into serverLatencies.  The ping outcome is the oracle
`coarse`; the collection order of the channel is scheduler-dependent, and is
modelled here by the canonical interleaving that preserves catalog order
(every claim proved below is insensitive to this order). -/
def coarseResults (coarse : MullvadServer → Option Duration) :
    List MullvadServer → List ServerLatency
  | [] => []
  | s :: rest =>
    match coarse s with
    | some d => ⟨s, d⟩ :: coarseResults coarse rest
    | none => coarseResults coarse rest

/-- Size of the refinement set in FindBestServer (src/unnamed/part_002, lines
119-123): `topServers := int(float64(n) * 0.1); if topServers < 5 {
topServers = 5 }`.  For catalog-scale n the float64 computation
int(float64(n)*0.1) truncates to exactly n / 10 in Nat arithmetic. -/
def topServersCount (n : Nat) : Nat :=
  if n / 10 < 5 then 5 else n / 10

/-- Coarse ranking: serverLatencies after the first sort.Slice call
(src/unnamed/part_002, lines 115-117). -/
def coarseRanked (S : GoSortSlice) (coarse : MullvadServer → Option Duration)
    (servers : List MullvadServer) : List ServerLatency :=
  S.sortLat (coarseResults coarse servers)

/-- Refinement set: the entries visited by the refined-phase loop
`for i := 0; i < topServers && i < len(serverLatencies); i++`
(src/unnamed/part_002, line 126). -/
def refinementSet (S : GoSortSlice) (coarse : MullvadServer → Option Duration)
    (servers : List MullvadServer) : List ServerLatency :=
  (coarseRanked S coarse servers).take (topServersCount (coarseResults coarse servers).length)

/-- Latencies of the successful attempts among the 3 refined-phase pings of
one server (src/unnamed/part_002, lines 131-137): attempt j succeeds with
latency d when the oracle returns some d. -/
def refinedAttempts (refined : MullvadServer → Nat → Option Duration)
    (s : MullvadServer) : List Duration :=
  (List.range 3).filterMap (refined s)

/-- Refined-phase outcome for one server (src/unnamed/part_002, lines
127-142): if at least one of the 3 pings succeeded, the server is kept with
the average (Go integer division of summed durations) of the successful
attempts only; otherwise it is dropped (its coarse latency is not reused). -/
def refineServer (refined : MullvadServer → Nat → Option Duration)
    (s : MullvadServer) : Option ServerLatency :=
  let succ := refinedAttempts refined s
  if 0 < succ.length then some ⟨s, succ.sum / succ.length⟩ else none

/-- finalResults of FindBestServer (src/unnamed/part_002, lines 125-143):
the refined-phase loop appends one averaged entry per refinement-set server
that had at least one successful refined ping. -/
def finalResults (S : GoSortSlice) (coarse : MullvadServer → Option Duration)
    (refined : MullvadServer → Nat → Option Duration)
    (servers : List MullvadServer) : List ServerLatency :=
  (refinementSet S coarse servers).filterMap (fun sl => refineServer refined sl.server)

/-- finalResults after the second sort.Slice call (src/unnamed/part_002,
lines 149-151): the final ranking. -/
def finalRanked (S : GoSortSlice) (coarse : MullvadServer → Option Duration)
    (refined : MullvadServer → Nat → Option Duration)
    (servers : List MullvadServer) : List ServerLatency :=
  S.sortLat (finalResults S coarse refined servers)

/-- Trace of refined-phase ping calls: the inner loop issues TCPPing attempts
j = 0, 1, 2 for each refinement-set entry in order (src/unnamed/part_002,
lines 131-132). -/
def refinedProbeTrace (S : GoSortSlice) (coarse : MullvadServer → Option Duration)
    (servers : List MullvadServer) : List (MullvadServer × Nat) :=
  (refinementSet S coarse servers).flatMap (fun sl => (List.range 3).map (fun j => (sl.server, j)))

/-- Aggregate errors of FindBestServer (src/unnamed/part_002):
noReachableRelay is the error string at line 112 ("no servers were
successfully pinged"), noneSurvivedRefinement the one at line 146 ("no
servers passed the final ping test"). -/
inductive ProbeErr where
  | noReachableRelay
  | noneSurvivedRefinement
  deriving DecidableEq, Repr

/-- FindBestServer of src/unnamed/part_002 (lines 73-155), starting from the
already fetched WireGuard server list: coarse concurrent ping sweep, abort if
nothing answered, sort, refine the top max(5, n/10) entries with 3 pings
each keeping averages of successful attempts, abort if nothing survived,
sort again and return the rank-0 server with its latency. -/
def FindBestServer (S : GoSortSlice) (coarse : MullvadServer → Option Duration)
    (refined : MullvadServer → Nat → Option Duration)
    (servers : List MullvadServer) : Except ProbeErr (MullvadServer × Duration) :=
  let serverLatencies := coarseResults coarse servers
  if serverLatencies.isEmpty then
    Except.error ProbeErr.noReachableRelay
  else
    let fin := finalResults S coarse refined servers
    if fin.isEmpty then
      Except.error ProbeErr.noneSurvivedRefinement
    else
      match finalRanked S coarse refined servers with
      | [] => Except.error ProbeErr.noneSurvivedRefinement
      | best :: _ => Except.ok (best.server, best.latency)

/-- Error taxonomy of package detect in src/internal/detect/detect.go.  The
source wraps inner errors in fmt.Errorf messages; wrappers are modelled as
constructors carrying the inner error. -/
inductive DetectErr where
  | noWireGuardFound
  | noServersPinged
  | noServersInCountry (c : String)
  | serverNotFound (name : String)
  | fetchFailed (e : DetectErr)
  | findCountryFailed (e : DetectErr)
  | findBestFailed (e : DetectErr)
  | noServerSelected
  deriving DecidableEq, Repr

/-- FetchAllMullvadServers (src/internal/detect/detect.go, lines 26-57)
starting from the already unmarshalled response body `raw`: keep servers
whose Type lower-cases to "wireguard", fail with "no WireGuard servers
found" when none remain. -/
def FetchAllMullvadServers (raw : List MullvadServer) : Except DetectErr (List MullvadServer) :=
  let wireguardServers := raw.filter (fun s => strToLower s.type' == ("wireguard"))
  if wireguardServers.isEmpty then
    Except.error DetectErr.noWireGuardFound
  else
    Except.ok wireguardServers

/-- Ranked-prefix extraction shared by FindBestServers and
FindBestServersInCountry (src/internal/detect/detect.go, lines 108-130 and
176-198): drain the results channel, fail when nothing answered, sort by
latency, clamp count to the number of survivors and return the first count
servers. -/
def bestOfLatencies (S : GoSortSlice) (serverLatencies : List ServerLatency)
    (count : Nat) : Except DetectErr (List MullvadServer) :=
  if serverLatencies.isEmpty then
    Except.error DetectErr.noServersPinged
  else
    let ranked := S.sortLat serverLatencies
    let c := if ranked.length < count then ranked.length else count
    Except.ok ((ranked.take c).map (fun sl => sl.server))

/-- FindBestServers (src/internal/detect/detect.go, lines 77-131): fetch the
catalog, ping every server concurrently (one TCPPing each, failures silently
dropped), and return the count lowest-latency servers. -/
def FindBestServers (S : GoSortSlice) (coarse : MullvadServer → Option Duration)
    (raw : List MullvadServer) (count : Nat) : Except DetectErr (List MullvadServer) :=
  match FetchAllMullvadServers raw with
  | Except.error e => Except.error e
  | Except.ok servers => bestOfLatencies S (coarseResults coarse servers) count

/-- FindBestServersInCountry (src/internal/detect/detect.go, lines 134-199):
fetch the catalog, keep servers whose CountryName matches the country code
case-insensitively (strings.EqualFold, modelled as equality of lower-cased
strings), fail when none match, then ping and rank as FindBestServers
does. -/
def FindBestServersInCountry (S : GoSortSlice) (coarse : MullvadServer → Option Duration)
    (raw : List MullvadServer) (countryCode : String) (count : Nat) :
    Except DetectErr (List MullvadServer) :=
  match FetchAllMullvadServers raw with
  | Except.error e => Except.error e
  | Except.ok servers =>
    let countryServers := servers.filter
      (fun s => strToLower s.countryName == strToLower countryCode)
    if countryServers.isEmpty then
      Except.error (DetectErr.noServersInCountry countryCode)
    else
      bestOfLatencies S (coarseResults coarse countryServers) count

/-- SelectBestServer (src/internal/detect/detect.go, lines 202-239): a
three-way switch in fixed order.  With a server name, fetch the catalog and
return the first exact hostname match, failing with "specified server not
found" otherwise; with a country code, delegate to FindBestServersInCountry
with count 1; with latency-based selection enabled, delegate to
FindBestServers with count 1; in every remaining case (including an empty
best-server list falling through) fail with "no server selected". -/
def SelectBestServer (S : GoSortSlice) (coarse : MullvadServer → Option Duration)
    (raw : List MullvadServer) (serverName countryCode : String)
    (useLatencyBasedSelection : Bool) : Except DetectErr MullvadServer :=
  if serverName ≠ ("") then
    match FetchAllMullvadServers raw with
    | Except.error e => Except.error (DetectErr.fetchFailed e)
    | Except.ok servers =>
      match servers.find? (fun s => s.hostname == serverName) with
      | some s => Except.ok s
      | none => Except.error (DetectErr.serverNotFound serverName)
  else if countryCode ≠ ("") then
    match FindBestServersInCountry S coarse raw countryCode 1 with
    | Except.error e => Except.error (DetectErr.findCountryFailed e)
    | Except.ok [] => Except.error DetectErr.noServerSelected
    | Except.ok (b :: _) => Except.ok b
  else if useLatencyBasedSelection then
    match FindBestServers S coarse raw 1 with
    | Except.error e => Except.error (DetectErr.findBestFailed e)
    | Except.ok [] => Except.error DetectErr.noServerSelected
    | Except.ok (b :: _) => Except.ok b
  else
    Except.error DetectErr.noServerSelected

/-- Supervisor state of the spec's state machine, read off the control flow
of MonitorConnection (src/pkg/vpn/vpn.go, lines 51-85): Connected while the
loop keeps running, Terminated once the loop breaks.  Switching is the
transient state inside one iteration and is not observable between
iterations. -/
inductive SupervisorState where
  | Connected
  | Terminated
  deriving DecidableEq, Repr

/-- Inputs consumed by one iteration of the MonitorConnection loop: the
outcome of the VPNStatus query, of SelectBestServer, and of SwitchServer.
selection is none when SelectBestServer returned an error. -/
structure IterInput where
  statusErr : Bool
  secure : Bool
  selection : Option MullvadServer
  switchOk : Bool
  deriving DecidableEq, Repr

/-- Observable outcome of one iteration of the MonitorConnection loop:
the state the supervisor is in afterwards, whether the defensive
DisconnectVPN after a failed switch was invoked in the failure handling, and
whether the loop proceeds to the next iteration. -/
structure IterResult where
  next : SupervisorState
  defensiveDown : Bool
  continuesLoop : Bool
  deriving DecidableEq, Repr

/-- Loop body of MonitorConnection (src/pkg/vpn/vpn.go, lines 62-84; the
copy at src/internal/detect/detect.go lines 300-332 is identical up to
logging): when the status query errs or reports insecure, re-select a
server; a selection failure logs and continues the loop; a switch failure
invokes DisconnectVPN defensively and breaks the loop; otherwise the loop
sleeps and continues. -/
def monitorStep (inp : IterInput) : IterResult :=
  if inp.statusErr || !inp.secure then
    match inp.selection with
    | none =>
      { next := SupervisorState.Connected, defensiveDown := false, continuesLoop := true }
    | some _ =>
      if inp.switchOk then
        { next := SupervisorState.Connected, defensiveDown := false, continuesLoop := true }
      else
        { next := SupervisorState.Terminated, defensiveDown := true, continuesLoop := false }
  else
    { next := SupervisorState.Connected, defensiveDown := false, continuesLoop := true }

/-- Run of the MonitorConnection loop over a finite schedule of iteration
inputs, returning the final state together with the number of iterations
executed: the loop stops early exactly when an iteration breaks. -/
def monitorRun : List IterInput → SupervisorState × Nat
  | [] => (SupervisorState.Connected, 0)
  | inp :: rest =>
    let r := monitorStep inp
    if r.continuesLoop then
      ((monitorRun rest).1, (monitorRun rest).2 + 1)
    else
      (r.next, 1)

/-- Observable calls SwitchServer makes on the tunnel driver, i.e. the
wg-quick invocations of DisconnectVPN and SetupVPN. -/
inductive TunnelEvent where
  | downOk
  | downFail
  | upOk
  | upFail
  deriving DecidableEq, Repr

/-- SwitchServer (src/pkg/vpn/vpn.go, lines 87-103; identical copy at
src/internal/detect/detect.go lines 334-349) as the trace of tunnel-driver
calls it performs, given the success of the first DisconnectVPN, of
SetupVPN, and of the defensive DisconnectVPN after a setup failure, paired
with whether SwitchServer returns nil: disconnect first and stop on its
failure; only after a successful disconnect attempt the setup; on setup
failure disconnect again defensively and report failure. -/
def SwitchServerTrace (down1Ok upOk down2Ok : Bool) : List TunnelEvent × Bool :=
  if !down1Ok then
    ([TunnelEvent.downFail], false)
  else if upOk then
    ([TunnelEvent.downOk, TunnelEvent.upOk], true)
  else
    ([TunnelEvent.downOk, TunnelEvent.upFail,
      if down2Ok then TunnelEvent.downOk else TunnelEvent.downFail], false)

/-- Number of tunnels up after one tunnel-driver call: a successful wg-quick
down tears the interface down, a successful wg-quick up brings one up, and a
failed call leaves the count unchanged. -/
def applyTunnelEvent (n : Nat) : TunnelEvent → Nat
  | TunnelEvent.downOk => 0
  | TunnelEvent.downFail => n
  | TunnelEvent.upOk => n + 1
  | TunnelEvent.upFail => n

/-- Number of tunnels up after a sequence of tunnel-driver calls, starting
from n tunnels. -/
def tunnelsAfter (n : Nat) : List TunnelEvent → Nat
  | [] => n
  | e :: rest => tunnelsAfter (applyTunnelEvent n e) rest

/-- JSON values as far as the Go type assertions in VPNStatus distinguish
them: `result["k"].(bool)` yields the boolean for jbool and the zero value
false for every other shape (and for a missing key), and symmetrically for
string assertions. -/
inductive JValue where
  | jbool (b : Bool)
  | jstring (s : String)
  | jnumber (n : Int)
  | jnull
  | jarray
  | jobject
  deriving DecidableEq, Repr

/-- Unmarshalled JSON object: association list of fields (Go map keys are
unique; lookup takes the first binding). -/
abbrev JObject := List (String × JValue)

/-- Go type assertion `result[k].(bool)` with discarded ok flag: false unless
the field is present and a boolean. -/
def assertBool (o : JObject) (k : String) : Bool :=
  match o.lookup k with
  | some (JValue.jbool b) => b
  | _ => false

/-- Go type assertion `result[k].(string)` with discarded ok flag: the empty
string unless the field is present and a string. -/
def assertString (o : JObject) (k : String) : String :=
  match o.lookup k with
  | some (JValue.jstring s) => s
  | _ => ""

/-- Transport-stage failures of VPNStatus: http.Get error or body read
error.  A JSON unmarshal failure is NOT represented here because the source
discards it. -/
inductive NetErr where
  | getFailed
  | readFailed
  deriving DecidableEq, Repr

/-- Tuple returned by VPNStatus (src/pkg/vpn/vpn.go, line 139): secure, ip,
countryCode, city, mullvadServer, organization, blacklisted. -/
structure StatusReport where
  secure : Bool
  ip : String
  countryCode : String
  city : String
  mullvadServer : Bool
  organization : String
  blacklisted : Bool
  deriving DecidableEq, Repr

/-- VPNStatus (src/pkg/vpn/vpn.go, lines 114-140; identical copy at
src/internal/detect/detect.go lines 360-386).  The argument fetch models the
http.Get and ReadAll stages; on their failure the error is returned.  The
Option JObject inside models the json.Unmarshal outcome: none when the body
is not valid JSON.  The source ignores json.Unmarshal's error, leaving the
result map nil, and then reads every field through a best-effort type
assertion, so a malformed body yields the zero value of every field and a
nil error.  validateCountry calls the external countries library and is
abstracted as an oracle. -/
def VPNStatus (validateCountry : String → String)
    (fetch : Except NetErr (Option JObject)) : Except NetErr StatusReport :=
  match fetch with
  | Except.error e => Except.error e
  | Except.ok unmarshalled =>
    let result : JObject := unmarshalled.getD []
    Except.ok
      { secure := assertBool result ("mullvad_exit_ip")
        ip := assertString result ("ip")
        countryCode := validateCountry (assertString result ("country"))
        city := assertString result ("city")
        mullvadServer := assertBool result ("mullvad_server")
        organization := assertString result ("organization")
        blacklisted := assertBool result ("blacklisted") }

/-- Status of one coarse-phase probe goroutine (src/unnamed/part_002, lines
85-99, same shape at src/internal/detect/detect.go lines 87-101): idle
before `semaphore <- struct\x7b\x7d\x7b\x7d`, inflight from semaphore
acquisition until the deferred release (TCPPing runs in this window), done
afterwards. -/
inductive WStatus where
  | idle
  | inflight
  | done
  deriving DecidableEq, Repr

/-- Global state of the coarse-phase fan-out: one status per spawned
goroutine. -/
structure ProbeState where
  workers : List WStatus
  deriving DecidableEq, Repr

/-- Number of goroutines currently holding the semaphore, i.e. number of
in-flight probes.  The semaphore channel has capacity 50
(`make(chan struct\x7b\x7d, 50)`), so a send blocks exactly while 50 are
held. -/
def inflightCount (s : ProbeState) : Nat :=
  s.workers.count WStatus.inflight

/-- Interleaving semantics of the fan-out: goroutine i may acquire the
semaphore only while fewer than 50 goroutines hold it (the channel send
blocks otherwise), and may release it when it holds it. -/
inductive ProbeStep : ProbeState → ProbeState → Prop
  | acquire (s : ProbeState) (i : Nat) (hw : s.workers[i]? = some WStatus.idle)
      (hc : inflightCount s < 50) :
      ProbeStep s ⟨s.workers.set i WStatus.inflight⟩
  | release (s : ProbeState) (i : Nat) (hw : s.workers[i]? = some WStatus.inflight) :
      ProbeStep s ⟨s.workers.set i WStatus.done⟩

/-- States reachable from a given start state by interleaved probe
goroutine steps. -/
inductive ProbeReachable (init' : ProbeState) : ProbeState → Prop
  | refl : ProbeReachable init' init'
  | step {s s' : ProbeState} (h : ProbeReachable init' s) (hs : ProbeStep s s') :
      ProbeReachable init' s'

/-- Start state of the fan-out: one goroutine per catalog entry, none of
them started. -/
def probeInit (servers : List MullvadServer) : ProbeState :=
  ⟨servers.map (fun _ => WStatus.idle)⟩

/-- Concrete WireGuard relay used to evaluate the embedding on explicit
inputs. -/
def srvA : MullvadServer :=
  ⟨("a.relay"), ("10.0.0.1"), ("sweden"), ("pkA"), ("wireguard")⟩

/-- Second concrete WireGuard relay. -/
def srvB : MullvadServer :=
  ⟨("b.relay"), ("10.0.0.2"), ("sweden"), ("pkB"), ("wireguard")⟩

/-- Catalog of 51 relays, chosen so that 10 percent of the survivors is not
an integer. -/
def servers51 : List MullvadServer := List.replicate 51 srvA

/-- Two-relay catalog. -/
def catalogAB : List MullvadServer := [srvA, srvB]

/-- Coarse oracle: every ping succeeds with latency 7. -/
def pingAll7 : MullvadServer → Option Duration := fun _ => some 7

/-- Coarse oracle distinguishing the two concrete relays. -/
def coarseAB : MullvadServer → Option Duration :=
  fun s => if s.hostname == ("a.relay") then some 10 else some 20

/-- Refined oracle: every refined attempt succeeds with latency 30, so both
concrete relays end with an averaged latency of 30 — a tie. -/
def refinedAll30 : MullvadServer → Nat → Option Duration := fun _ _ => some 30

/-- Refined oracle: attempt j against any server succeeds with latency
10 + j. -/
def refinedStep10 : MullvadServer → Nat → Option Duration := fun _ j => some (10 + j)

theorem topServersCount_eq (n : Nat) : topServersCount n = max 5 (n / 10) := by
  unfold topServersCount
  split
  case isTrue h => exact (Nat.max_eq_left (Nat.le_of_lt h)).symm
  case isFalse h => exact (Nat.max_eq_right (Nat.le_of_not_lt h)).symm

theorem refinementSet_length (S : GoSortSlice) (coarse : MullvadServer → Option Duration)
    (servers : List MullvadServer) :
    (refinementSet S coarse servers).length
      = min (max 5 ((coarseResults coarse servers).length / 10))
          (coarseResults coarse servers).length := by
  unfold refinementSet coarseRanked
  rw [List.length_take, (S.perm (coarseResults coarse servers)).length_eq, topServersCount_eq]

theorem refinementSet_is_top (S : GoSortSlice) (coarse : MullvadServer → Option Duration)
    (servers : List MullvadServer) :
    ∃ rest, coarseRanked S coarse servers = refinementSet S coarse servers ++ rest :=
  ⟨(coarseRanked S coarse servers).drop
      (topServersCount (coarseResults coarse servers).length),
    (List.take_append_drop _ _).symm⟩

theorem sorted_head_min {x : ServerLatency} {xs : List ServerLatency}
    (h : List.Sorted latR (x :: xs)) : ∀ y ∈ x :: xs, x.latency ≤ y.latency := by
  intro y hy
  rcases List.mem_cons.mp hy with rfl | hy
  · exact Nat.le_refl _
  · exact (List.sorted_cons.mp h).1 y hy

theorem count_set_get {α : Type} [DecidableEq α] :
    ∀ (l : List α) (i : Nat) (a v b : α), l[i]? = some a →
      (l.set i v).count b
        = l.count b + (if v == b then 1 else 0) - (if a == b then 1 else 0)
  | [], i, _, _, _, h => by simp at h
  | x :: xs, 0, a, v, b, h => by
    simp only [List.getElem?_cons_zero, Option.some.injEq] at h
    subst h
    simp only [List.set_cons_zero, List.count_cons]
    split <;> split <;> omega
  | x :: xs, i + 1, a, v, b, h => by
    simp only [List.getElem?_cons_succ] at h
    have hmem : a ∈ xs := List.getElem?_mem h
    simp only [List.set_cons_succ, List.count_cons, count_set_get xs i a v b h]
    cases hab : a == b with
    | false =>
      simp only [hab, Bool.false_eq_true, if_false]
      split <;> split <;> omega
    | true =>
      have hab' : a = b := by simpa using hab
      have hpos : 1 ≤ xs.count b := List.count_pos_iff.mpr (hab' ▸ hmem)
      simp only [hab, if_true]
      split <;> split <;> omega

theorem inflight_probeInit (servers : List MullvadServer) :
    inflightCount (probeInit servers) = 0 := by
  simp [inflightCount, probeInit, List.count_eq_zero, List.mem_map]

theorem countP_probe_trace (l : List ServerLatency) (s : MullvadServer) :
    ((l.flatMap (fun sl => (List.range 3).map (fun j => (sl.server, j)))).countP
        (fun e => e.1 == s))
      = 3 * l.countP (fun sl => sl.server == s) := by
  induction l with
  | nil => rfl
  | cons x xs ih =>
    have hr3 : ((List.range 3).map (fun j => (x.server, j))).countP (fun e => e.1 == s)
        = if x.server == s then 3 else 0 := by
      have hlist : (List.range 3).map (fun j => (x.server, j))
          = [(x.server, 0), (x.server, 1), (x.server, 2)] := rfl
      rw [hlist]
      simp only [List.countP_cons, List.countP_nil]
      cases hx : x.server == s <;> simp [hx]
    simp only [List.flatMap_cons, List.countP_append, hr3, ih, List.countP_cons]
    cases hx : x.server == s with
    | true => simp only [hx, if_true]; omega
    | false => simp [hx]

/-- Preservation of the in-flight bound by one goroutine step. -/
theorem probeStep_inflight {s s' : ProbeState} (hs : ProbeStep s s')
    (hb : inflightCount s ≤ 50) : inflightCount s' ≤ 50 := by
  cases hs with
  | acquire i hw hc =>
    have hcnt := count_set_get s.workers i WStatus.idle WStatus.inflight WStatus.inflight hw
    simp only [inflightCount] at hc hb ⊢
    rw [hcnt]
    norm_num
    omega
  | release i hw =>
    have hcnt := count_set_get s.workers i WStatus.inflight WStatus.done WStatus.inflight hw
    simp only [inflightCount] at hb ⊢
    rw [hcnt]
    simp +decide
    omega

/-- Claim C10: for every candidate catalog, in every reachable interleaving
of the coarse-phase probe goroutines the number of simultaneously in-flight
probes never exceeds the semaphore capacity of 50, because each goroutine
acquires the semaphore before it dials. -/
theorem coarse_inflight_bounded (servers : List MullvadServer) (s : ProbeState)
    (h : ProbeReachable (probeInit servers) s) : inflightCount s ≤ 50 := by
  induction h with
  | refl => simp [inflight_probeInit]
  | step hr hstep ih => exact probeStep_inflight hstep ih

/-- Witness for C10: the bound holds at the initial state of a concrete
fan-out. -/
theorem coarse_inflight_bounded_witness : inflightCount (probeInit catalogAB) ≤ 50 :=
  coarse_inflight_bounded catalogAB (probeInit catalogAB) ProbeReachable.refl

/-- Claim C1 counterexample: on an iteration whose health check reports
insecure and whose relay selection fails, the loop body does NOT behave as
on tunnel-setup failure — it performs no defensive Down, stays Connected and
continues the loop, rather than going to Terminated and stopping. -/
theorem monitorStep_selection_failure_counterexample :
    monitorStep ⟨false, false, none, true⟩
        = ⟨SupervisorState.Connected, false, true⟩ ∧
    ¬ monitorStep ⟨false, false, none, true⟩
        = ⟨SupervisorState.Terminated, true, false⟩ := by
  decide

/-- Claim C1 (amended): on an iteration in which the health check errs or
reports insecure, a relay-selection failure makes the supervisor log and
continue the loop (it retries on the next iteration, with no defensive Down
and no termination); only a failed SwitchServer triggers the defensive
Down, the transition to Terminated, and the end of the loop with no further
iterations. -/
theorem monitorStep_failure_discipline (inp : IterInput)
    (h : inp.statusErr = true ∨ inp.secure = false) :
    (inp.selection = none →
      monitorStep inp = ⟨SupervisorState.Connected, false, true⟩ ∧
      ∀ rest, monitorRun (inp :: rest) = ((monitorRun rest).1, (monitorRun rest).2 + 1)) ∧
    (∀ srv rest, inp.selection = some srv → inp.switchOk = false →
      monitorStep inp = ⟨SupervisorState.Terminated, true, false⟩ ∧
      monitorRun (inp :: rest) = (SupervisorState.Terminated, 1)) := by
  have hcond : (inp.statusErr || !inp.secure) = true := by
    rcases h with h | h <;> simp [h]
  constructor
  · intro hsel
    have hstep : monitorStep inp = ⟨SupervisorState.Connected, false, true⟩ := by
      simp [monitorStep, hcond, hsel]
    exact ⟨hstep, fun rest => by simp [monitorRun, hstep]⟩
  · intro srv rest hsel hsw
    have hstep : monitorStep inp = ⟨SupervisorState.Terminated, true, false⟩ := by
      simp [monitorStep, hcond, hsel, hsw]
    exact ⟨hstep, by simp [monitorRun, hstep]⟩

/-- Witness for the amended C1: a concrete insecure iteration with a
successful selection and a failed switch ends the loop in Terminated after
exactly one iteration, with the defensive Down performed. -/
theorem monitorStep_failure_discipline_witness :
    monitorStep ⟨true, true, some srvA, false⟩
        = ⟨SupervisorState.Terminated, true, false⟩ ∧
    monitorRun [⟨true, true, some srvA, false⟩] = (SupervisorState.Terminated, 1) :=
  (monitorStep_failure_discipline ⟨true, true, some srvA, false⟩ (Or.inl rfl)).2
    srvA [] rfl rfl

/-- Claim C7: in every execution of SwitchServer, any SetupVPN (tunnel Up)
call is preceded by a completed successful DisconnectVPN — the trace starts
with a successful Down whenever an Up event occurs — and, starting from the
one previously active tunnel, no prefix of the driver-call trace ever has
more than one tunnel up. -/
theorem switch_down_before_up (down1Ok upOk down2Ok : Bool) :
    (∀ e ∈ (SwitchServerTrace down1Ok upOk down2Ok).1,
        (e = TunnelEvent.upOk ∨ e = TunnelEvent.upFail) →
        (SwitchServerTrace down1Ok upOk down2Ok).1.head? = some TunnelEvent.downOk) ∧
    (∀ p ∈ (SwitchServerTrace down1Ok upOk down2Ok).1.inits, tunnelsAfter 1 p ≤ 1) := by
  cases down1Ok <;> cases upOk <;> cases down2Ok <;> decide

/-- Witness for C7: concrete run in which the first Down succeeds and the
setup fails; the trace begins with the successful Down and at no point are
two tunnels up. -/
theorem switch_down_before_up_witness :
    (SwitchServerTrace true false true).1.head? = some TunnelEvent.downOk ∧
    tunnelsAfter 1 (SwitchServerTrace true false true).1 ≤ 1 :=
  ⟨(switch_down_before_up true false true).1 TunnelEvent.upFail (by decide) (Or.inr rfl),
    (switch_down_before_up true false true).2 (SwitchServerTrace true false true).1 (by decide)⟩

/-- Claim C8: SelectBestServer is deterministic and side-effect-free — it is
a pure function of the sort-model, the latency snapshot (ping oracle) and
the catalog, so two calls against an identical, unchanged catalog and
latency snapshot return the same relay; the embedding threads no mutable
state, matching the source, whose selection path reads but never writes
ambient configuration. -/
theorem select_deterministic (S : GoSortSlice)
    (coarse coarse' : MullvadServer → Option Duration)
    (raw raw' : List MullvadServer) (serverName countryCode : String) (useLat : Bool)
    (hsnap : coarse = coarse') (hcat : raw = raw') :
    SelectBestServer S coarse raw serverName countryCode useLat
      = SelectBestServer S coarse' raw' serverName countryCode useLat := by
  subst hsnap
  subst hcat
  rfl

/-- Witness for C8 at a concrete policy, catalog and snapshot. -/
theorem select_deterministic_witness :
    SelectBestServer stdSortModel pingAll7 catalogAB ("a.relay") ("") true
      = SelectBestServer stdSortModel pingAll7 catalogAB ("a.relay") ("") true :=
  select_deterministic stdSortModel pingAll7 pingAll7 catalogAB catalogAB
    ("a.relay") ("") true rfl rfl

/-- Claim C9: for every status-oracle body that is not valid JSON (the
unmarshal outcome is none) or whose mullvad_exit_ip field is missing or not
a boolean, VPNStatus returns secure = false together with a nil error: the
unmarshal error is discarded and the missing field defaults to its zero
value, so the malformed response reads as a well-formed insecure report. -/
theorem vpnstatus_malformed_insecure (validate : String → String) (u : Option JObject)
    (h : u = none ∨ ∀ b : Bool,
        (u.getD []).lookup ("mullvad_exit_ip") ≠ some (JValue.jbool b)) :
    ∃ r, VPNStatus validate (Except.ok u) = Except.ok r ∧ r.secure = false := by
  refine ⟨_, rfl, ?_⟩
  show assertBool (u.getD []) ("mullvad_exit_ip") = false
  rcases h with rfl | h
  · rfl
  · unfold assertBool
    split
    next b heq => exact absurd heq (h b)
    next => rfl

/-- Concrete malformed status body: mullvad_exit_ip is present but holds a
string, not a boolean. -/
def malformedBody : Option JObject :=
  some [(("mullvad_exit_ip"), JValue.jstring ("true"))]

/-- Witness for C9 at the concrete malformed body. -/
theorem vpnstatus_malformed_insecure_witness :
    ∃ r, VPNStatus id (Except.ok malformedBody) = Except.ok r ∧ r.secure = false :=
  vpnstatus_malformed_insecure id malformedBody (Or.inr (by decide))

/-- Claim C2 counterexample: with 51 coarse-phase survivors the refinement
set has 5 entries — the source truncates float64(n)*0.1, giving
max(5, floor(0.1*51)) = 5 — and not min(n, max(5, ceil(0.1*n))) = 6 as the
claim states. -/
theorem refinement_size_ceil_counterexample :
    (coarseResults pingAll7 servers51).length = 51 ∧
    (refinementSet stdSortModel pingAll7 servers51).length = 5 ∧
    ¬ (refinementSet stdSortModel pingAll7 servers51).length
        = min (max 5 (((coarseResults pingAll7 servers51).length + 9) / 10))
            (coarseResults pingAll7 servers51).length := by
  decide

/-- Claim C2 (amended): for every coarse-phase survivor list of n ≥ 1
relays, the refinement set is a prefix of the ranked survivors (the
top-ranked ones) and its size equals max(5, floor(0.1 * n)) capped at the
survivor count n. -/
theorem refinement_size_floor (S : GoSortSlice) (coarse : MullvadServer → Option Duration)
    (servers : List MullvadServer)
    (_h : 1 ≤ (coarseResults coarse servers).length) :
    (refinementSet S coarse servers).length
      = min (max 5 ((coarseResults coarse servers).length / 10))
          (coarseResults coarse servers).length ∧
    ∃ rest, coarseRanked S coarse servers = refinementSet S coarse servers ++ rest :=
  ⟨refinementSet_length S coarse servers, refinementSet_is_top S coarse servers⟩

/-- Witness for the amended C2 on a concrete two-survivor catalog. -/
theorem refinement_size_floor_witness :
    (refinementSet stdSortModel pingAll7 catalogAB).length
      = min (max 5 ((coarseResults pingAll7 catalogAB).length / 10))
          (coarseResults pingAll7 catalogAB).length ∧
    ∃ rest, coarseRanked stdSortModel pingAll7 catalogAB
        = refinementSet stdSortModel pingAll7 catalogAB ++ rest :=
  refinement_size_floor stdSortModel pingAll7 catalogAB (by decide)

/-- Claim C4: with explicitHostname set (serverName non-empty), Select
fetches the full catalog and performs no probing — the result does not
depend on the sort model or the ping oracle — returns a catalog entry whose
hostname equals the requested name whenever it returns a relay, and fails
with the server-not-found error (RelayNotFound) exactly when no catalog
entry has that hostname. -/
theorem select_explicit_hostname (S S' : GoSortSlice)
    (coarse coarse' : MullvadServer → Option Duration) (raw : List MullvadServer)
    (name countryCode : String) (useLat : Bool) (wg : List MullvadServer)
    (hname : name ≠ ("")) (hfetch : FetchAllMullvadServers raw = Except.ok wg) :
    SelectBestServer S coarse raw name countryCode useLat
        = SelectBestServer S' coarse' raw name countryCode useLat ∧
    (∀ s, SelectBestServer S coarse raw name countryCode useLat = Except.ok s →
      s ∈ wg ∧ s.hostname = name) ∧
    (SelectBestServer S coarse raw name countryCode useLat
        = Except.error (DetectErr.serverNotFound name)
      ↔ ∀ s ∈ wg, s.hostname ≠ name) := by
  have hbranch : ∀ (T : GoSortSlice) (c : MullvadServer → Option Duration),
      SelectBestServer T c raw name countryCode useLat
        = (match wg.find? (fun s => s.hostname == name) with
            | some s => Except.ok s
            | none => Except.error (DetectErr.serverNotFound name)) := by
    intro T c
    unfold SelectBestServer
    rw [if_pos hname, hfetch]
  refine ⟨by rw [hbranch S coarse, hbranch S' coarse'], ?_, ?_⟩
  · intro s hs
    rw [hbranch S coarse] at hs
    cases hfind : wg.find? (fun x => x.hostname == name) with
    | none =>
      rw [hfind] at hs
      exact absurd hs (by simp)
    | some t =>
      rw [hfind] at hs
      have hts : t = s := by simpa using hs
      subst hts
      refine ⟨List.mem_of_find?_eq_some hfind, ?_⟩
      simpa using List.find?_some hfind
  · rw [hbranch S coarse]
    cases hfind : wg.find? (fun x => x.hostname == name) with
    | none =>
      constructor
      · intro _ s hsmem
        simpa using List.find?_eq_none.mp hfind s hsmem
      · intro _
        rfl
    | some t =>
      constructor
      · intro hcontra
        exact absurd hcontra (by simp)
      · intro hall
        have hmem := List.mem_of_find?_eq_some hfind
        have hhn : t.hostname = name := by simpa using List.find?_some hfind
        exact absurd hhn (hall t hmem)

/-- Witness for C4 on a concrete catalog, with two different sort models and
ping oracles on the two sides of the no-probing conjunct. -/
theorem select_explicit_hostname_witness :
    SelectBestServer stdSortModel pingAll7 catalogAB ("a.relay") ("") false
        = SelectBestServer tieFlipModel coarseAB catalogAB ("a.relay") ("") false ∧
    (∀ s, SelectBestServer stdSortModel pingAll7 catalogAB ("a.relay") ("") false
          = Except.ok s →
      s ∈ [srvA, srvB] ∧ s.hostname = ("a.relay")) ∧
    (SelectBestServer stdSortModel pingAll7 catalogAB ("a.relay") ("") false
        = Except.error (DetectErr.serverNotFound ("a.relay"))
      ↔ ∀ s ∈ [srvA, srvB], s.hostname ≠ ("a.relay")) :=
  select_explicit_hostname stdSortModel tieFlipModel pingAll7 coarseAB catalogAB
    ("a.relay") ("") false [srvA, srvB] (by decide) rfl

/-- Head of a successful single-best ranking: bestOfLatencies with count 1
returns the server of some measurement that is in the survivor list and has
minimal latency among all survivors. -/
theorem bestOfLatencies_one (S : GoSortSlice) (sl : List ServerLatency)
    (res : List MullvadServer) (h : bestOfLatencies S sl 1 = Except.ok res) :
    ∃ r0 : ServerLatency, res = [r0.server] ∧ r0 ∈ sl ∧
      ∀ y ∈ sl, r0.latency ≤ y.latency := by
  simp only [bestOfLatencies] at h
  by_cases hemp : sl.isEmpty
  · rw [if_pos hemp] at h
    exact absurd h (by simp)
  · rw [if_neg hemp] at h
    cases hr : S.sortLat sl with
    | nil =>
      exfalso
      have hlen := (S.perm sl).length_eq
      rw [hr] at hlen
      simp only [List.length_nil] at hlen
      exact hemp (List.isEmpty_iff.mpr (List.length_eq_zero.mp hlen.symm))
    | cons r0 rtail =>
      rw [hr] at h
      simp only [List.length_cons] at h
      rw [if_neg (by omega)] at h
      simp only [List.take_succ_cons, List.take_zero, List.map_cons, List.map_nil] at h
      have hres : [r0.server] = res := by simpa using h
      refine ⟨r0, hres.symm, ?_, ?_⟩
      · have : r0 ∈ S.sortLat sl := by
          rw [hr]
          exact List.mem_cons_self r0 rtail
        exact (S.perm sl).subset this
      · intro y hy
        have hy' : y ∈ S.sortLat sl := (S.perm sl).symm.subset hy
        have hs := S.sorted sl
        rw [hr] at hs hy'
        exact sorted_head_min hs y hy'

/-- Claim C5 counterexample: a policy with neither explicitHostname nor
regionCode set but useLatencyBasedSelection false does NOT take the
latency-based default branch — Select fails with "no server selected" even
though probing would have succeeded and ranked srvA first. -/
theorem select_no_flag_counterexample :
    SelectBestServer stdSortModel pingAll7 [srvA] ("") ("") false
        = Except.error DetectErr.noServerSelected ∧
    FindBestServers stdSortModel pingAll7 [srvA] 1 = Except.ok [srvA] :=
  ⟨rfl, rfl⟩

/-- Claim C5 (amended): with neither explicitHostname nor regionCode set,
Select takes the latency-based default branch only when
useLatencyBasedSelection is true — it then fetches the full catalog, probes,
and any relay it returns is a probed survivor of globally minimal latency
(rank 0); when the flag is false it fails with "no server selected". -/
theorem select_latency_default (S : GoSortSlice)
    (coarse : MullvadServer → Option Duration) (raw : List MullvadServer) :
    SelectBestServer S coarse raw ("") ("") false
        = Except.error DetectErr.noServerSelected ∧
    ∀ b, SelectBestServer S coarse raw ("") ("") true = Except.ok b →
      ∃ wg d, FetchAllMullvadServers raw = Except.ok wg ∧
        ServerLatency.mk b d ∈ coarseResults coarse wg ∧
        ∀ sl ∈ coarseResults coarse wg, d ≤ sl.latency := by
  constructor
  · rfl
  · intro b hb
    unfold SelectBestServer at hb
    rw [if_neg (by simp), if_neg (by simp), if_pos rfl] at hb
    cases hf : FindBestServers S coarse raw 1 with
    | error e =>
      rw [hf] at hb
      exact absurd hb (by simp)
    | ok lst =>
      rw [hf] at hb
      cases lst with
      | nil => exact absurd hb (by simp)
      | cons x xs =>
        have hxb : x = b := by simpa using hb
        subst hxb
        unfold FindBestServers at hf
        cases hfetch : FetchAllMullvadServers raw with
        | error e =>
          rw [hfetch] at hf
          exact absurd hf (by simp)
        | ok wg =>
          rw [hfetch] at hf
          obtain ⟨r0, hres, hmem, hmin⟩ := bestOfLatencies_one S _ _ hf
          obtain ⟨hx, -⟩ : x = r0.server ∧ xs = [] := by simpa using hres
          subst hx
          exact ⟨wg, r0.latency, rfl, hmem, hmin⟩

/-- Witness for the amended C5 on a concrete one-relay catalog. -/
theorem select_latency_default_witness :
    SelectBestServer stdSortModel pingAll7 [srvA] ("") ("") false
        = Except.error DetectErr.noServerSelected ∧
    ∀ b, SelectBestServer stdSortModel pingAll7 [srvA] ("") ("") true = Except.ok b →
      ∃ wg d, FetchAllMullvadServers [srvA] = Except.ok wg ∧
        ServerLatency.mk b d ∈ coarseResults pingAll7 wg ∧
        ∀ sl ∈ coarseResults pingAll7 wg, d ≤ sl.latency :=
  select_latency_default stdSortModel pingAll7 [srvA]

/-- Membership characterisation of finalResults: a measurement is in the
refined set exactly when its server sits in the refinement set, at least one
of its 3 refined pings succeeded, and its latency is the integer average of
the successful attempts only. -/
theorem mem_finalResults_iff (S : GoSortSlice) (coarse : MullvadServer → Option Duration)
    (refined : MullvadServer → Nat → Option Duration) (servers : List MullvadServer)
    (s : MullvadServer) (d : Duration) :
    ServerLatency.mk s d ∈ finalResults S coarse refined servers ↔
      ((∃ sl ∈ refinementSet S coarse servers, sl.server = s) ∧
        refinedAttempts refined s ≠ [] ∧
        d = (refinedAttempts refined s).sum / (refinedAttempts refined s).length) := by
  unfold finalResults
  rw [List.mem_filterMap]
  constructor
  · rintro ⟨sl, hsl, href⟩
    unfold refineServer at href
    by_cases hlen : 0 < (refinedAttempts refined sl.server).length
    · rw [if_pos hlen] at href
      obtain ⟨hse, hd⟩ : sl.server = s ∧
          (refinedAttempts refined sl.server).sum
            / (refinedAttempts refined sl.server).length = d := by
        simpa [ServerLatency.mk.injEq] using href
      subst hse
      exact ⟨⟨sl, hsl, rfl⟩, List.length_pos.mp hlen, hd.symm⟩
    · rw [if_neg hlen] at href
      exact absurd href (by simp)
  · rintro ⟨⟨sl, hsl, hse⟩, hne, hd⟩
    refine ⟨sl, hsl, ?_⟩
    unfold refineServer
    rw [hse, if_pos (List.length_pos.mpr hne), hd]

/-- Claim C3: for every relay in the refinement set the refined phase issues
exactly 3 additional probes (3 per occurrence in the set), keeps a relay
with the average latency of only its successful attempts, drops entirely any
relay with zero successful refined attempts (no coarse latency is retained),
the final ranking is the refined set sorted ascending by averaged latency,
and FindBestServer fails with the none-survived-refinement aggregate error
exactly when the refined set is empty (given that the coarse phase had
survivors). -/
theorem refined_phase_spec (S : GoSortSlice) (coarse : MullvadServer → Option Duration)
    (refined : MullvadServer → Nat → Option Duration) (servers : List MullvadServer)
    (h : coarseResults coarse servers ≠ []) :
    (∀ s : MullvadServer,
      (refinedProbeTrace S coarse servers).countP (fun e => e.1 == s)
        = 3 * (refinementSet S coarse servers).countP (fun sl => sl.server == s)) ∧
    (∀ s d, ServerLatency.mk s d ∈ finalResults S coarse refined servers ↔
      ((∃ sl ∈ refinementSet S coarse servers, sl.server = s) ∧
        refinedAttempts refined s ≠ [] ∧
        d = (refinedAttempts refined s).sum / (refinedAttempts refined s).length)) ∧
    (List.Sorted latR (finalRanked S coarse refined servers) ∧
      (finalRanked S coarse refined servers).Perm
        (finalResults S coarse refined servers)) ∧
    (FindBestServer S coarse refined servers
        = Except.error ProbeErr.noneSurvivedRefinement
      ↔ finalResults S coarse refined servers = []) := by
  refine ⟨fun s => countP_probe_trace (refinementSet S coarse servers) s,
    fun s d => mem_finalResults_iff S coarse refined servers s d,
    ⟨S.sorted (finalResults S coarse refined servers),
      S.perm (finalResults S coarse refined servers)⟩, ?_⟩
  simp only [FindBestServer]
  rw [if_neg (by simpa [List.isEmpty_iff] using h)]
  by_cases hfin : (finalResults S coarse refined servers).isEmpty
  · rw [if_pos hfin]
    simp only [List.isEmpty_iff] at hfin
    simp [hfin]
  · rw [if_neg hfin]
    have hne : finalResults S coarse refined servers ≠ [] := by
      simpa [List.isEmpty_iff] using hfin
    cases hr : finalRanked S coarse refined servers with
    | nil =>
      exfalso
      have hlen := (S.perm (finalResults S coarse refined servers)).length_eq
      rw [show S.sortLat (finalResults S coarse refined servers)
          = finalRanked S coarse refined servers from rfl, hr] at hlen
      simp only [List.length_nil] at hlen
      exact hne (List.length_eq_zero.mp hlen.symm)
    | cons b rest =>
      simp [hne]

/-- Witness for C3: the failure-iff-empty part at a concrete catalog and
oracles, with the coarse-survivor hypothesis discharged by computation. -/
theorem refined_phase_spec_witness :
    FindBestServer stdSortModel coarseAB refinedStep10 catalogAB
        = Except.error ProbeErr.noneSurvivedRefinement
      ↔ finalResults stdSortModel coarseAB refinedStep10 catalogAB = [] :=
  (refined_phase_spec stdSortModel coarseAB refinedStep10 catalogAB (by decide)).2.2.2

/-- Claim C6 counterexample: the sorts are not stable.  The sort.Slice
contract admits the conforming implementation tieFlipModel, under which two
equal-averaged-latency relays appear in the final ranking in the reverse of
their coarse-phase relative order, so it is false that for every admissible
sort behaviour equal latencies preserve the coarse-phase order (the source
would need sort.SliceStable for that). -/
theorem sort_stability_counterexample :
    ¬ (∀ (S : GoSortSlice) (coarse : MullvadServer → Option Duration)
        (refined : MullvadServer → Nat → Option Duration)
        (servers : List MullvadServer) (d : Duration),
        (coarseRanked S coarse servers).filter (fun x => x.latency == d)
            = (coarseResults coarse servers).filter (fun x => x.latency == d) ∧
        (finalRanked S coarse refined servers).filter (fun x => x.latency == d)
            = (finalResults S coarse refined servers).filter (fun x => x.latency == d)) := by
  intro hclaim
  exact absurd (hclaim tieFlipModel coarseAB refinedAll30 catalogAB 30).2 (by decide)

/-- Claim C6 (amended): both the coarse-phase and the refined-phase sort
order their input ascending by latency — each ranking is a latency-sorted
permutation of its input — but equal latencies are in no guaranteed order,
because sort.Slice is documented as unstable. -/
theorem rankings_sorted_perm (S : GoSortSlice) (coarse : MullvadServer → Option Duration)
    (refined : MullvadServer → Nat → Option Duration) (servers : List MullvadServer) :
    (List.Sorted latR (coarseRanked S coarse servers) ∧
      (coarseRanked S coarse servers).Perm (coarseResults coarse servers)) ∧
    (List.Sorted latR (finalRanked S coarse refined servers) ∧
      (finalRanked S coarse refined servers).Perm
        (finalResults S coarse refined servers)) :=
  ⟨⟨S.sorted (coarseResults coarse servers), S.perm (coarseResults coarse servers)⟩,
    ⟨S.sorted (finalResults S coarse refined servers),
      S.perm (finalResults S coarse refined servers)⟩⟩

end GoGuard
